import Mathlib

/-!
Verification of the event-ingestion and state-reconciliation pipeline of the
pokemon-llm stream-overlay repository.

The definitions below are a shallow embedding of the TypeScript source:

* the Fire Emblem overlay App (src/unnamed/part_009): the WebSocket event
  router handleGameUpdate, the game-state shallow merge, the chronicle
  delta merge, and the capacity-100 action log addLog;
* the Pokemon overlay App (src/unnamed/part_011): the capacity-3000
  newest-first raw log pushes;
* the useThoughts hook (src/pokemon-ui, display.ts part): the capacity-20
  oldest-first thought buffer with duplicate-of-previous rejection;
* the Chronicle viewer component (pokemon-ui UnitPortrait.tsx file): the
  append-and-keep-last-100 chronicle push;
* extractButtons (pokemon-ui/src/utils/sprites.ts and
  tmp/fe-client/src/utils/transformers.ts);
* chapter data and buildChapterTreeState
  (tmp/fe-client: utils/chapterData in the InfoBar.tsx file, transformers.ts);
* the strict-sync VisionScreenshot component
  (pokemon-ui/src/components/vision/VisionScreenshot.tsx).

JavaScript truthiness on optional string fields is modelled explicitly;
wall-clock derived fields (Date.now ids, ISO timestamps) do not influence
any verified property and are omitted from the record types.
-/

/-- JavaScript truthiness of an optional string field: undefined and the
empty string are falsy, every other string is truthy. -/
def jsOptStrTruthy : Option String → Bool
  | none => false
  | some s => !s.isEmpty

/-- ChronicleEntry from types/gameTypes (src/unnamed/part_001, lines 266-278).
All fields are optional in the source except timestamp. -/
structure ChronicleEntry where
  id : Option String
  session_id : Option String
  timestamp : String
  chapter : Option String
  phase : Option String
  interpretation : Option String
  narrative : Option String
  summary : Option String
  screenshot : Option String
  screenshot_url : Option String
  actions : List String
deriving DecidableEq, Repr

/-- A chronicle entry with every optional field absent; concrete inputs in
counterexamples and witnesses are built from it. -/
def anonEntry (ts : String) : ChronicleEntry :=
  { id := none, session_id := none, timestamp := ts, chapter := none,
    phase := none, interpretation := none, narrative := none, summary := none,
    screenshot := none, screenshot_url := none, actions := [] }

/-- A chronicle entry carrying only an id and a timestamp. -/
def idEntry (i ts : String) : ChronicleEntry :=
  { anonEntry ts with id := some i }

/-- The chronicle_update delta merge of the Fire Emblem App
(src/unnamed/part_009, lines 140-149): a delta with a falsy id is appended;
a delta with a truthy id first removes every entry sharing that id and is
then appended at the tail.  The source performs no truncation here. -/
def chronMerge (prev : List ChronicleEntry) (update : ChronicleEntry) :
    List ChronicleEntry :=
  if jsOptStrTruthy update.id = false then
    prev ++ [update]
  else
    (prev.filter (fun entry => entry.id ≠ update.id)) ++ [update]

/-- The chronicle_update push of the standalone Chronicle viewer component
(pokemon-ui/src/components/units/UnitPortrait.tsx file, lines 70-76):
append the delta and keep the newest 100 entries, with no id dedup. -/
def chronicleViewerPush (prev : List ChronicleEntry) (update : ChronicleEntry) :
    List ChronicleEntry :=
  let updated := prev ++ [update]
  updated.drop (updated.length - 100)

/-- Appending an anonymous (falsy-id) delta n times grows the chronicle by
exactly n entries: the part_009 merge performs no truncation. -/
lemma length_foldl_chronMerge_replicate (u : ChronicleEntry)
    (h : jsOptStrTruthy u.id = false) :
    ∀ (n : Nat) (l : List ChronicleEntry),
      (List.foldl chronMerge l (List.replicate n u)).length = l.length + n := by
  intro n
  induction n with
  | zero => intro l; simp
  | succ k ih =>
      intro l
      rw [List.replicate_succ, List.foldl_cons, ih]
      simp [chronMerge, h]
      omega

/-- C5 counterexample: for a delta without an id, applying the same delta
twice appends it twice — the merge is not idempotent as claimed. -/
theorem chronicle_merge_not_idempotent_cx :
    chronMerge (chronMerge [] (anonEntry "t")) (anonEntry "t")
      ≠ chronMerge [] (anonEntry "t") := by
  decide

/-- C5 amended: the chronicle merge is idempotent for every delta carrying a
truthy (non-empty) id; deltas without an id are appended on every
application. -/
theorem chronicle_merge_idempotent_truthy_id (prev : List ChronicleEntry)
    (u : ChronicleEntry) (h : jsOptStrTruthy u.id = true) :
    chronMerge (chronMerge prev u) u = chronMerge prev u := by
  simp only [chronMerge, h, Bool.true_eq_false, if_false,
    List.filter_append, List.filter_filter]
  simp

/-- Witness for the amended C5 theorem at a concrete delta with id x. -/
theorem chronicle_merge_idempotent_truthy_id_witness :
    jsOptStrTruthy (idEntry "x" "t").id = true
    ∧ chronMerge (chronMerge [anonEntry "s"] (idEntry "x" "t")) (idEntry "x" "t")
        = chronMerge [anonEntry "s"] (idEntry "x" "t") :=
  ⟨by decide,
   chronicle_merge_idempotent_truthy_id [anonEntry "s"] (idEntry "x" "t") (by decide)⟩

/-- C6: after two chronicle_update deltas sharing the same non-empty id,
exactly one entry with that id remains, it equals the second delta, it sits
at the tail, and anonymous (id-less) entries keep their exact multiplicity
through both merges. -/
theorem chronicle_id_replacement (prev : List ChronicleEntry)
    (d1 d2 : ChronicleEntry) (s : String) (hs : s ≠ "")
    (h1 : d1.id = some s) (h2 : d2.id = some s) :
    (chronMerge (chronMerge prev d1) d2).filter (fun e => e.id = some s) = [d2]
    ∧ (chronMerge (chronMerge prev d1) d2).getLast? = some d2
    ∧ ∀ e : ChronicleEntry, e.id = none →
        (chronMerge (chronMerge prev d1) d2).count e = prev.count e := by
  have hse : s.isEmpty = false := by
    cases h : s.isEmpty with
    | false => rfl
    | true => exact absurd ((String.isEmpty_iff s).mp h) hs
  have hst : jsOptStrTruthy (some s) = true := by
    simp [jsOptStrTruthy, hse]
  have hr : chronMerge (chronMerge prev d1) d2
      = prev.filter (fun e => e.id ≠ some s) ++ [d2] := by
    simp only [chronMerge, h1, h2, hst, Bool.true_eq_false, if_false,
      List.filter_append, List.filter_filter]
    simp [h1]
  refine ⟨?_, ?_, ?_⟩
  · rw [hr, List.filter_append, List.filter_filter]
    simp [h2]
  · rw [hr]
    exact List.getLast?_concat _
  · intro e he
    rw [hr, List.count_append]
    have hcf : (prev.filter (fun e => e.id ≠ some s)).count e = prev.count e :=
      List.count_filter (by simp [he])
    have hc2 : List.count e [d2] = 0 := by
      simp only [List.count_singleton, beq_iff_eq]
      rw [if_neg]
      intro hcontra
      rw [← hcontra, h2] at he
      exact Option.noConfusion he
    omega

/-- Witness for the C6 theorem at two concrete deltas with id x over a
chronicle holding one anonymous entry. -/
theorem chronicle_id_replacement_witness :
    (("x" : String) ≠ ""
      ∧ (idEntry "x" "1").id = some "x" ∧ (idEntry "x" "2").id = some "x")
    ∧ ((chronMerge (chronMerge [anonEntry "n"] (idEntry "x" "1"))
          (idEntry "x" "2")).filter (fun e => e.id = some "x") = [idEntry "x" "2"]
      ∧ (chronMerge (chronMerge [anonEntry "n"] (idEntry "x" "1"))
          (idEntry "x" "2")).getLast? = some (idEntry "x" "2")
      ∧ ∀ e : ChronicleEntry, e.id = none →
          (chronMerge (chronMerge [anonEntry "n"] (idEntry "x" "1"))
            (idEntry "x" "2")).count e = ([anonEntry "n"] : List ChronicleEntry).count e) :=
  ⟨⟨by decide, by decide, by decide⟩,
   chronicle_id_replacement [anonEntry "n"] (idEntry "x" "1") (idEntry "x" "2")
     "x" (by decide) (by decide) (by decide)⟩

/-- An untyped JSON-ish value as carried by payload fields of the Fire
Emblem App (src/unnamed/part_009).  The constructors cover the field shapes
declared by the StatePayload type alias of that file. -/
inductive Val where
  | vstr (s : String)
  | vnum (n : Int)
  | vbool (b : Bool)
  | vents (es : List ChronicleEntry)
  | vent (e : ChronicleEntry)
deriving DecidableEq, Repr

/-- JavaScript truthiness of a payload value: empty string, zero and false
are falsy; arrays and objects are always truthy. -/
def jsTruthyV : Val → Bool
  | .vstr s => !s.isEmpty
  | .vnum n => n ≠ 0
  | .vbool b => b
  | .vents _ => true
  | .vent _ => true

/-- A decoded state payload object: an ordered list of key/value pairs with
first-key-wins lookup (JavaScript objects have unique keys). -/
def Payload := List (String × Val)

/-- Property access on a payload object. -/
def plookup : Payload → String → Option Val
  | [], _ => none
  | (k, v) :: rest, key => if k = key then some v else plookup rest key

/-- A stored Fire Emblem log record (src/unnamed/part_001 LogEntry): the
Date.now id and ISO timestamp are wall-clock inputs that influence no
verified property and are omitted. -/
structure FeLogEntry where
  message : String
  type : String
deriving DecidableEq, Repr

/-- The log_entry payload shape (ws types): a text plus an untyped optional
category field. -/
structure LogPayload where
  text : String
  category : Option Val
deriving DecidableEq, Repr

/-- The session_start payload shape. -/
structure SessionPayload where
  session_id : String
deriving DecidableEq, Repr

/-- The modelled slice of the Fire Emblem App component state
(src/unnamed/part_009, lines 31-50).  The vision, memory-write and
ai-processing sub-stores are independent of every claim and omitted;
game is the mapping from field name to last-known value. -/
structure LiveState where
  game : String → Option Val
  logs : List FeLogEntry
  currentScreenshot : Val
  chronicle : List ChronicleEntry
  currentSessionId : Val

/-- The decoded WebSocket message (tag plus payload), restricted to the tags
whose handlers touch the modelled state; every other tag (vision_update,
vision_status, ai_thought, memory_write, ai_processing, unknown) only
touches omitted sub-stores or is a no-op and is collapsed into otherTag. -/
inductive Event where
  | state_snapshot (payload : Option Payload)
  | state_update (payload : Option Payload)
  | log_entry (payload : Option LogPayload)
  | session_start (payload : Option SessionPayload)
  | otherTag

/-- The gameplay category allow-list of src/unnamed/part_009, line 20. -/
def GAMEPLAY_LOG_TYPES : List String := ["movement", "combat", "action", "battle", "ai"]

/-- isKnownLogCategory of src/unnamed/part_009, lines 90-104. -/
def isKnownLogCategory (value : String) : Bool :=
  value = "action" || value = "battle" || value = "system" || value = "error"
    || value = "ai" || value = "combat" || value = "movement" || value = "info"

/-- The category coercion of the log_entry dispatch case (part_009 lines
155-158): a non-string category is treated as absent, and an absent or
unknown category is coerced to info. -/
def coerceLogCategory (c : Option Val) : String :=
  let rawCategory : Option String := match c with
    | some (.vstr x) => some x
    | _ => none
  match rawCategory with
  | some x => if isKnownLogCategory x then x else "info"
  | none => "info"

/-- addLog of src/unnamed/part_009, lines 218-240: drop non-gameplay
categories, otherwise prepend the new record and keep the newest 100. -/
def addLog (message : String) (ty : String) (logs : List FeLogEntry) :
    List FeLogEntry :=
  if GAMEPLAY_LOG_TYPES.contains ty then
    ({ message := message, type := ty } :: logs).take 100
  else
    logs

/-- The shallow merge performed by the state_update case of part_009,
line 128: the spread of the incoming payload over the previous game object,
every payload key overwriting. -/
def mergeGame (g : String → Option Val) (p : Payload) : String → Option Val :=
  fun k => match plookup p k with
    | some v => some v
    | none => g k

/-- Side-channel routing of the screenshot reference (part_009 lines
117-119 and 130-132): a truthy screenshotUrl payload field replaces the
current screenshot sub-store. -/
def routeScreenshot (p : Payload) (s : LiveState) : LiveState :=
  match plookup p "screenshotUrl" with
  | some v => if jsTruthyV v then { s with currentScreenshot := v } else s
  | none => s

/-- Side-channel routing of the session identifier (part_009 lines
134-136): a truthy session_id payload field replaces the current session
id sub-store. -/
def routeSession (p : Payload) (s : LiveState) : LiveState :=
  match plookup p "session_id" with
  | some v => if jsTruthyV v then { s with currentSessionId := v } else s
  | none => s

/-- Side-channel routing of an embedded chronicle batch (part_009 lines
120-122): a chronicle_entries array replaces the chronicle list. -/
def routeChronicleBatch (p : Payload) (s : LiveState) : LiveState :=
  match plookup p "chronicle_entries" with
  | some (.vents es) => { s with chronicle := es }
  | _ => s

/-- Chronicle routing of the state_update case (part_009 lines 138-149): a
chronicle_entries batch replaces the list, otherwise a chronicle_update
delta is merged. -/
def routeChronicleBatchOrDelta (p : Payload) (s : LiveState) : LiveState :=
  match plookup p "chronicle_entries" with
  | some (.vents es) => { s with chronicle := es }
  | _ =>
      match plookup p "chronicle_update" with
      | some (.vent e) => { s with chronicle := chronMerge s.chronicle e }
      | _ => s

/-- handleGameUpdate of src/unnamed/part_009, lines 108-216, restricted to
the modelled state.  The state_update case spreads the whole payload into
game (the side-channel keys included) and then routes truthy side-channel
fields to their sub-stores; the snapshot case replaces game wholly and
routes only the screenshot and the chronicle batch. -/
def handleGameUpdate (s : LiveState) (ev : Event) : LiveState :=
  match ev with
  | .state_snapshot none => s
  | .state_snapshot (some p) =>
      routeChronicleBatch p (routeScreenshot p { s with game := fun k => plookup p k })
  | .state_update none => s
  | .state_update (some p) =>
      routeChronicleBatchOrDelta p
        (routeSession p (routeScreenshot p { s with game := mergeGame s.game p }))
  | .log_entry none => s
  | .log_entry (some p) =>
      if p.text = "" then s
      else { s with logs := addLog p.text (coerceLogCategory p.category) s.logs }
  | .session_start none => s
  | .session_start (some p) =>
      if p.session_id = "" then s
      else
        { s with currentSessionId := .vstr p.session_id,
                 logs := addLog ("New session started: " ++ p.session_id)
                   "system" s.logs }
  | .otherTag => s

/-- Screenshot routing never touches the game mapping. -/
lemma routeScreenshot_game (p : Payload) (s : LiveState) :
    (routeScreenshot p s).game = s.game := by
  unfold routeScreenshot
  cases plookup p "screenshotUrl" with
  | none => rfl
  | some v => by_cases h : jsTruthyV v <;> simp [h]

/-- Screenshot routing never touches the logs. -/
lemma routeScreenshot_logs (p : Payload) (s : LiveState) :
    (routeScreenshot p s).logs = s.logs := by
  unfold routeScreenshot
  cases plookup p "screenshotUrl" with
  | none => rfl
  | some v => by_cases h : jsTruthyV v <;> simp [h]

/-- Screenshot routing never touches the chronicle. -/
lemma routeScreenshot_chronicle (p : Payload) (s : LiveState) :
    (routeScreenshot p s).chronicle = s.chronicle := by
  unfold routeScreenshot
  cases plookup p "screenshotUrl" with
  | none => rfl
  | some v => by_cases h : jsTruthyV v <;> simp [h]

/-- Screenshot routing never touches the session id. -/
lemma routeScreenshot_sessionId (p : Payload) (s : LiveState) :
    (routeScreenshot p s).currentSessionId = s.currentSessionId := by
  unfold routeScreenshot
  cases plookup p "screenshotUrl" with
  | none => rfl
  | some v => by_cases h : jsTruthyV v <;> simp [h]

/-- A truthy screenshotUrl field lands in the screenshot sub-store. -/
lemma routeScreenshot_hit (p : Payload) (s : LiveState) (v : Val)
    (h : plookup p "screenshotUrl" = some v) (ht : jsTruthyV v = true) :
    (routeScreenshot p s).currentScreenshot = v := by
  unfold routeScreenshot
  rw [h]
  simp [ht]

/-- Session routing never touches the game mapping. -/
lemma routeSession_game (p : Payload) (s : LiveState) :
    (routeSession p s).game = s.game := by
  unfold routeSession
  cases plookup p "session_id" with
  | none => rfl
  | some v => by_cases h : jsTruthyV v <;> simp [h]

/-- Session routing never touches the logs. -/
lemma routeSession_logs (p : Payload) (s : LiveState) :
    (routeSession p s).logs = s.logs := by
  unfold routeSession
  cases plookup p "session_id" with
  | none => rfl
  | some v => by_cases h : jsTruthyV v <;> simp [h]

/-- Session routing never touches the chronicle. -/
lemma routeSession_chronicle (p : Payload) (s : LiveState) :
    (routeSession p s).chronicle = s.chronicle := by
  unfold routeSession
  cases plookup p "session_id" with
  | none => rfl
  | some v => by_cases h : jsTruthyV v <;> simp [h]

/-- Session routing never touches the screenshot. -/
lemma routeSession_screenshot (p : Payload) (s : LiveState) :
    (routeSession p s).currentScreenshot = s.currentScreenshot := by
  unfold routeSession
  cases plookup p "session_id" with
  | none => rfl
  | some v => by_cases h : jsTruthyV v <;> simp [h]

/-- A truthy session_id field lands in the session sub-store. -/
lemma routeSession_hit (p : Payload) (s : LiveState) (v : Val)
    (h : plookup p "session_id" = some v) (ht : jsTruthyV v = true) :
    (routeSession p s).currentSessionId = v := by
  unfold routeSession
  rw [h]
  simp [ht]

/-- Chronicle-batch routing never touches the game mapping. -/
lemma routeChronicleBatch_game (p : Payload) (s : LiveState) :
    (routeChronicleBatch p s).game = s.game := by
  unfold routeChronicleBatch
  cases h : plookup p "chronicle_entries" with
  | none => rfl
  | some v => cases v <;> rfl

/-- Chronicle-batch routing never touches the logs. -/
lemma routeChronicleBatch_logs (p : Payload) (s : LiveState) :
    (routeChronicleBatch p s).logs = s.logs := by
  unfold routeChronicleBatch
  cases h : plookup p "chronicle_entries" with
  | none => rfl
  | some v => cases v <;> rfl

/-- Chronicle-batch routing never touches the screenshot. -/
lemma routeChronicleBatch_screenshot (p : Payload) (s : LiveState) :
    (routeChronicleBatch p s).currentScreenshot = s.currentScreenshot := by
  unfold routeChronicleBatch
  cases h : plookup p "chronicle_entries" with
  | none => rfl
  | some v => cases v <;> rfl

/-- Chronicle-batch routing never touches the session id. -/
lemma routeChronicleBatch_sessionId (p : Payload) (s : LiveState) :
    (routeChronicleBatch p s).currentSessionId = s.currentSessionId := by
  unfold routeChronicleBatch
  cases h : plookup p "chronicle_entries" with
  | none => rfl
  | some v => cases v <;> rfl

/-- An embedded chronicle batch replaces the chronicle list. -/
lemma routeChronicleBatch_hit (p : Payload) (s : LiveState)
    (es : List ChronicleEntry)
    (h : plookup p "chronicle_entries" = some (.vents es)) :
    (routeChronicleBatch p s).chronicle = es := by
  unfold routeChronicleBatch
  rw [h]

/-- A payload without a chronicle_entries key leaves the chronicle
unchanged under batch routing — in particular a chronicle_update delta in
a snapshot payload is never routed. -/
lemma routeChronicleBatch_miss (p : Payload) (s : LiveState)
    (h : plookup p "chronicle_entries" = none) :
    (routeChronicleBatch p s).chronicle = s.chronicle := by
  unfold routeChronicleBatch
  rw [h]

/-- Batch-or-delta chronicle routing never touches the game mapping. -/
lemma routeChronicleBatchOrDelta_game (p : Payload) (s : LiveState) :
    (routeChronicleBatchOrDelta p s).game = s.game := by
  unfold routeChronicleBatchOrDelta
  cases h : plookup p "chronicle_entries" with
  | none =>
      cases h2 : plookup p "chronicle_update" with
      | none => rfl
      | some v => cases v <;> rfl
  | some v =>
      cases v <;>
        first
        | rfl
        | (cases h2 : plookup p "chronicle_update" with
           | none => rfl
           | some w => cases w <;> rfl)

/-- Batch-or-delta chronicle routing never touches the logs. -/
lemma routeChronicleBatchOrDelta_logs (p : Payload) (s : LiveState) :
    (routeChronicleBatchOrDelta p s).logs = s.logs := by
  unfold routeChronicleBatchOrDelta
  cases h : plookup p "chronicle_entries" with
  | none =>
      cases h2 : plookup p "chronicle_update" with
      | none => rfl
      | some v => cases v <;> rfl
  | some v =>
      cases v <;>
        first
        | rfl
        | (cases h2 : plookup p "chronicle_update" with
           | none => rfl
           | some w => cases w <;> rfl)

/-- Batch-or-delta chronicle routing never touches the screenshot. -/
lemma routeChronicleBatchOrDelta_screenshot (p : Payload) (s : LiveState) :
    (routeChronicleBatchOrDelta p s).currentScreenshot = s.currentScreenshot := by
  unfold routeChronicleBatchOrDelta
  cases h : plookup p "chronicle_entries" with
  | none =>
      cases h2 : plookup p "chronicle_update" with
      | none => rfl
      | some v => cases v <;> rfl
  | some v =>
      cases v <;>
        first
        | rfl
        | (cases h2 : plookup p "chronicle_update" with
           | none => rfl
           | some w => cases w <;> rfl)

/-- Batch-or-delta chronicle routing never touches the session id. -/
lemma routeChronicleBatchOrDelta_sessionId (p : Payload) (s : LiveState) :
    (routeChronicleBatchOrDelta p s).currentSessionId = s.currentSessionId := by
  unfold routeChronicleBatchOrDelta
  cases h : plookup p "chronicle_entries" with
  | none =>
      cases h2 : plookup p "chronicle_update" with
      | none => rfl
      | some v => cases v <;> rfl
  | some v =>
      cases v <;>
        first
        | rfl
        | (cases h2 : plookup p "chronicle_update" with
           | none => rfl
           | some w => cases w <;> rfl)

/-- A chronicle batch in an update payload replaces the chronicle list. -/
lemma routeChronicleBatchOrDelta_batch_hit (p : Payload) (s : LiveState)
    (es : List ChronicleEntry)
    (h : plookup p "chronicle_entries" = some (.vents es)) :
    (routeChronicleBatchOrDelta p s).chronicle = es := by
  unfold routeChronicleBatchOrDelta
  rw [h]

/-- With no batch present, a chronicle_update delta is merged into the
chronicle list. -/
lemma routeChronicleBatchOrDelta_delta_hit (p : Payload) (s : LiveState)
    (e : ChronicleEntry)
    (hb : plookup p "chronicle_entries" = none)
    (hu : plookup p "chronicle_update" = some (.vent e)) :
    (routeChronicleBatchOrDelta p s).chronicle = chronMerge s.chronicle e := by
  unfold routeChronicleBatchOrDelta
  rw [hb, hu]

/-- The game component of a dispatched state_update is exactly the shallow
merge of the payload over the previous game mapping. -/
lemma handle_state_update_game (s : LiveState) (p : Payload) :
    (handleGameUpdate s (.state_update (some p))).game = mergeGame s.game p := by
  show (routeChronicleBatchOrDelta p
    (routeSession p (routeScreenshot p { s with game := mergeGame s.game p }))).game
      = mergeGame s.game p
  rw [routeChronicleBatchOrDelta_game, routeSession_game, routeScreenshot_game]

/-- A key absent from the payload keeps its previous value under shallow
merge. -/
lemma mergeGame_absent (g : String → Option Val) (p : Payload) (k : String)
    (h : plookup p k = none) : mergeGame g p k = g k := by
  simp [mergeGame, h]

/-- A key present in the payload takes the payload value under shallow
merge. -/
lemma mergeGame_present (g : String → Option Val) (p : Payload) (k : String)
    (v : Val) (h : plookup p k = some v) : mergeGame g p k = some v := by
  simp [mergeGame, h]

/-- Folding the dispatcher over state_update events folds the shallow merge
over the payloads. -/
lemma foldl_handle_state_update_game (ps : List Payload) :
    ∀ s : LiveState,
      ((ps.map (fun p => Event.state_update (some p))).foldl handleGameUpdate s).game
        = ps.foldl mergeGame s.game := by
  induction ps with
  | nil => intro s; rfl
  | cons p rest ih =>
      intro s
      rw [List.map_cons, List.foldl_cons, List.foldl_cons, ih,
        handle_state_update_game]

/-- A key absent from every payload of a fold keeps its initial value. -/
lemma foldl_mergeGame_absent (ps : List Payload) (k : String) :
    ∀ g : String → Option Val,
      (∀ p ∈ ps, plookup p k = none) → ps.foldl mergeGame g k = g k := by
  induction ps with
  | nil => intro g _; rfl
  | cons p rest ih =>
      intro g h
      rw [List.foldl_cons, ih _ (fun q hq => h q (List.mem_cons_of_mem p hq)),
        mergeGame_absent _ _ _ (h p (List.mem_cons_self p rest))]

/-- C1: dispatching any sequence of state_update events with non-null
payloads yields a game mapping equal to the left fold of the shallow merge
over the payloads in arrival order, and every key absent from every payload
keeps its initial value. -/
theorem state_update_fold_shallow_merge (s : LiveState) (ps : List Payload) :
    ((ps.map (fun p => Event.state_update (some p))).foldl handleGameUpdate s).game
      = ps.foldl mergeGame s.game
    ∧ ∀ k : String, (∀ p ∈ ps, plookup p k = none) →
      ((ps.map (fun p => Event.state_update (some p))).foldl
          handleGameUpdate s).game k = s.game k := by
  refine ⟨foldl_handle_state_update_game ps s, fun k h => ?_⟩
  rw [foldl_handle_state_update_game ps s, foldl_mergeGame_absent ps k s.game h]

/-- The initial Fire Emblem App state (part_009 lines 13-17 and 31-50):
phase Player, turn 0, no logs, no screenshot, empty chronicle, no session.
The initial empty units array influences no claim and is left out of the
game mapping. -/
def initLiveState : LiveState :=
  { game := fun k =>
      if k = "phase" then some (.vstr "Player")
      else if k = "turnNumber" then some (.vnum 0)
      else none,
    logs := [],
    currentScreenshot := .vstr "",
    chronicle := [],
    currentSessionId := .vstr "" }

/-- Witness for C1 at two concrete update payloads: hp is merged twice, xp
once, and the phase key, absent from both payloads, keeps its initial
value. -/
theorem state_update_fold_shallow_merge_witness :
    (∀ p ∈ [([("hp", Val.vnum 5)] : Payload),
            [("hp", Val.vnum 7), ("xp", Val.vnum 1)]],
        plookup p "phase" = none)
    ∧ (([([("hp", Val.vnum 5)] : Payload),
         [("hp", Val.vnum 7), ("xp", Val.vnum 1)]].map
          (fun p => Event.state_update (some p))).foldl
            handleGameUpdate initLiveState).game "phase"
        = initLiveState.game "phase" :=
  ⟨by decide,
   (state_update_fold_shallow_merge initLiveState
      [[("hp", Val.vnum 5)], [("hp", Val.vnum 7), ("xp", Val.vnum 1)]]).2
     "phase" (by decide)⟩

/-- Unfolding of the state_update dispatch case. -/
lemma handle_state_update_eq (s : LiveState) (p : Payload) :
    handleGameUpdate s (.state_update (some p))
      = routeChronicleBatchOrDelta p
          (routeSession p (routeScreenshot p { s with game := mergeGame s.game p })) :=
  rfl

/-- Unfolding of the state_snapshot dispatch case. -/
lemma handle_state_snapshot_eq (s : LiveState) (p : Payload) :
    handleGameUpdate s (.state_snapshot (some p))
      = routeChronicleBatch p
          (routeScreenshot p { s with game := fun k => plookup p k }) :=
  rfl

/-- C2 counterexample: a state_update payload field screenshotUrl is routed
to the screenshot sub-store AND stored verbatim as a key of the game
mapping (the spread copies every payload key), and a state_snapshot
payload field session_id is not routed to the session sub-store at all —
both refuting the claim as stated. -/
theorem side_channel_stored_in_game_cx :
    (handleGameUpdate initLiveState
        (.state_update (some [("screenshotUrl", Val.vstr "shot.png")]))).game
        "screenshotUrl" = some (Val.vstr "shot.png")
    ∧ (handleGameUpdate initLiveState
        (.state_update (some [("screenshotUrl", Val.vstr "shot.png")]))).currentScreenshot
        = Val.vstr "shot.png"
    ∧ (handleGameUpdate initLiveState
        (.state_snapshot (some [("session_id", Val.vstr "s1")]))).currentSessionId
        = Val.vstr "" :=
  ⟨rfl, rfl, rfl⟩

/-- C2 amended: on a state_update, every truthy side-channel field is
routed to its sub-store but is ALSO stored verbatim as a key of the game
mapping by the payload spread, and keys absent from the payload are
untouched; on a state_snapshot, only the screenshot reference and the
chronicle batch are routed, the session id is never routed, and the game
mapping becomes exactly the payload (side-channel keys included). -/
theorem side_channel_routing_amended (s : LiveState) (p : Payload) :
    ((∀ v, plookup p "screenshotUrl" = some v → jsTruthyV v = true →
        (handleGameUpdate s (.state_update (some p))).currentScreenshot = v
        ∧ (handleGameUpdate s (.state_update (some p))).game "screenshotUrl"
            = some v)
    ∧ (∀ v, plookup p "session_id" = some v → jsTruthyV v = true →
        (handleGameUpdate s (.state_update (some p))).currentSessionId = v
        ∧ (handleGameUpdate s (.state_update (some p))).game "session_id"
            = some v)
    ∧ (∀ es, plookup p "chronicle_entries" = some (.vents es) →
        (handleGameUpdate s (.state_update (some p))).chronicle = es
        ∧ (handleGameUpdate s (.state_update (some p))).game "chronicle_entries"
            = some (.vents es))
    ∧ (∀ e, plookup p "chronicle_entries" = none →
          plookup p "chronicle_update" = some (.vent e) →
        (handleGameUpdate s (.state_update (some p))).chronicle
            = chronMerge s.chronicle e
        ∧ (handleGameUpdate s (.state_update (some p))).game "chronicle_update"
            = some (.vent e))
    ∧ (∀ k, plookup p k = none →
        (handleGameUpdate s (.state_update (some p))).game k = s.game k))
    ∧ ((∀ v, plookup p "screenshotUrl" = some v → jsTruthyV v = true →
          (handleGameUpdate s (.state_snapshot (some p))).currentScreenshot = v)
    ∧ (∀ es, plookup p "chronicle_entries" = some (.vents es) →
          (handleGameUpdate s (.state_snapshot (some p))).chronicle = es)
    ∧ (∀ e, plookup p "chronicle_entries" = none →
          plookup p "chronicle_update" = some (.vent e) →
        (handleGameUpdate s (.state_snapshot (some p))).chronicle = s.chronicle)
    ∧ (handleGameUpdate s (.state_snapshot (some p))).currentSessionId
          = s.currentSessionId
    ∧ (∀ k, (handleGameUpdate s (.state_snapshot (some p))).game k
          = plookup p k)) := by
  constructor
  · refine ⟨fun v h ht => ⟨?_, ?_⟩, fun v h ht => ⟨?_, ?_⟩,
      fun es h => ⟨?_, ?_⟩, fun e hb hu => ⟨?_, ?_⟩, fun k h => ?_⟩
    · rw [handle_state_update_eq, routeChronicleBatchOrDelta_screenshot,
        routeSession_screenshot]
      exact routeScreenshot_hit _ _ _ h ht
    · rw [handle_state_update_game]
      exact mergeGame_present _ _ _ _ h
    · rw [handle_state_update_eq, routeChronicleBatchOrDelta_sessionId]
      exact routeSession_hit _ _ _ h ht
    · rw [handle_state_update_game]
      exact mergeGame_present _ _ _ _ h
    · rw [handle_state_update_eq]
      exact routeChronicleBatchOrDelta_batch_hit _ _ _ h
    · rw [handle_state_update_game]
      exact mergeGame_present _ _ _ _ h
    · rw [handle_state_update_eq,
        routeChronicleBatchOrDelta_delta_hit _ _ _ hb hu,
        routeSession_chronicle, routeScreenshot_chronicle]
    · rw [handle_state_update_game]
      exact mergeGame_present _ _ _ _ hu
    · rw [handle_state_update_game]
      exact mergeGame_absent _ _ _ h
  · refine ⟨fun v h ht => ?_, fun es h => ?_, fun e hb hu => ?_, ?_, fun k => ?_⟩
    · rw [handle_state_snapshot_eq, routeChronicleBatch_screenshot]
      exact routeScreenshot_hit _ _ _ h ht
    · rw [handle_state_snapshot_eq]
      exact routeChronicleBatch_hit _ _ _ h
    · rw [handle_state_snapshot_eq, routeChronicleBatch_miss _ _ hb,
        routeScreenshot_chronicle]
    · rw [handle_state_snapshot_eq, routeChronicleBatch_sessionId,
        routeScreenshot_sessionId]
    · rw [handle_state_snapshot_eq, routeChronicleBatch_game,
        routeScreenshot_game]

/-- Witness for the amended C2 theorem: a concrete update payload carrying
a screenshot, a session id, a chronicle delta and an ordinary key, plus a
concrete snapshot payload carrying a chronicle batch. -/
theorem side_channel_routing_amended_witness :
    ((handleGameUpdate initLiveState (.state_update (some
        [("screenshotUrl", Val.vstr "u.png"), ("session_id", Val.vstr "s1"),
         ("chronicle_update", Val.vent (idEntry "x" "t")),
         ("hp", Val.vnum 3)]))).currentScreenshot = Val.vstr "u.png"
    ∧ (handleGameUpdate initLiveState (.state_update (some
        [("screenshotUrl", Val.vstr "u.png"), ("session_id", Val.vstr "s1"),
         ("chronicle_update", Val.vent (idEntry "x" "t")),
         ("hp", Val.vnum 3)]))).currentSessionId = Val.vstr "s1"
    ∧ (handleGameUpdate initLiveState (.state_update (some
        [("screenshotUrl", Val.vstr "u.png"), ("session_id", Val.vstr "s1"),
         ("chronicle_update", Val.vent (idEntry "x" "t")),
         ("hp", Val.vnum 3)]))).chronicle
        = chronMerge initLiveState.chronicle (idEntry "x" "t")
    ∧ (handleGameUpdate initLiveState (.state_update (some
        [("screenshotUrl", Val.vstr "u.png"), ("session_id", Val.vstr "s1"),
         ("chronicle_update", Val.vent (idEntry "x" "t")),
         ("hp", Val.vnum 3)]))).game "phase" = initLiveState.game "phase")
    ∧ ((handleGameUpdate initLiveState (.state_update (some
        [("chronicle_entries", Val.vents [idEntry "b" "t"])]))).chronicle
          = [idEntry "b" "t"]
      ∧ (handleGameUpdate initLiveState (.state_update (some
        [("chronicle_entries", Val.vents [idEntry "b" "t"])]))).game
          "chronicle_entries" = some (Val.vents [idEntry "b" "t"]))
    ∧ (handleGameUpdate initLiveState (.state_snapshot (some
        [("chronicle_entries", Val.vents [idEntry "a" "t"])]))).chronicle
        = [idEntry "a" "t"]
    ∧ (handleGameUpdate initLiveState (.state_snapshot (some
        [("chronicle_update", Val.vent (idEntry "c" "t"))]))).chronicle
        = initLiveState.chronicle := by
  refine ⟨⟨?_, ?_, ?_, ?_⟩, ?_, ?_, ?_⟩
  · exact ((side_channel_routing_amended initLiveState
      [("screenshotUrl", Val.vstr "u.png"), ("session_id", Val.vstr "s1"),
       ("chronicle_update", Val.vent (idEntry "x" "t")),
       ("hp", Val.vnum 3)]).1.1 (Val.vstr "u.png") (by decide) (by decide)).1
  · exact ((side_channel_routing_amended initLiveState
      [("screenshotUrl", Val.vstr "u.png"), ("session_id", Val.vstr "s1"),
       ("chronicle_update", Val.vent (idEntry "x" "t")),
       ("hp", Val.vnum 3)]).1.2.1 (Val.vstr "s1") (by decide) (by decide)).1
  · exact ((side_channel_routing_amended initLiveState
      [("screenshotUrl", Val.vstr "u.png"), ("session_id", Val.vstr "s1"),
       ("chronicle_update", Val.vent (idEntry "x" "t")),
       ("hp", Val.vnum 3)]).1.2.2.2.1 (idEntry "x" "t") (by decide) (by decide)).1
  · exact (side_channel_routing_amended initLiveState
      [("screenshotUrl", Val.vstr "u.png"), ("session_id", Val.vstr "s1"),
       ("chronicle_update", Val.vent (idEntry "x" "t")),
       ("hp", Val.vnum 3)]).1.2.2.2.2 "phase" (by decide)
  · exact (side_channel_routing_amended initLiveState
      [("chronicle_entries", Val.vents [idEntry "b" "t"])]).1.2.2.1
      [idEntry "b" "t"] (by decide)
  · exact (side_channel_routing_amended initLiveState
      [("chronicle_entries", Val.vents [idEntry "a" "t"])]).2.2.1
      [idEntry "a" "t"] (by decide)
  · exact (side_channel_routing_amended initLiveState
      [("chronicle_update", Val.vent (idEntry "c" "t"))]).2.2.2.1
      (idEntry "c" "t") (by decide) (by decide)

/-- Unfolding of the log_entry dispatch case. -/
lemma handle_log_entry_eq (s : LiveState) (p : LogPayload) :
    handleGameUpdate s (.log_entry (some p))
      = if p.text = "" then s
        else { s with logs := addLog p.text (coerceLogCategory p.category) s.logs } :=
  rfl

/-- Unfolding of the session_start dispatch case. -/
lemma handle_session_start_eq (s : LiveState) (p : SessionPayload) :
    handleGameUpdate s (.session_start (some p))
      = if p.session_id = "" then s
        else { s with currentSessionId := .vstr p.session_id,
                      logs := addLog ("New session started: " ++ p.session_id)
                        "system" s.logs } :=
  rfl

/-- addLog drops any message whose category is outside the gameplay
allow-list. -/
lemma addLog_not_gameplay (m ty : String) (logs : List FeLogEntry)
    (h : GAMEPLAY_LOG_TYPES.contains ty = false) :
    addLog m ty logs = logs := by
  unfold addLog
  rw [if_neg (show ¬(GAMEPLAY_LOG_TYPES.contains ty = true) by
    rw [h]; exact Bool.false_ne_true)]

/-- addLog prepends an allow-listed message and keeps the newest 100. -/
lemma addLog_gameplay (m ty : String) (logs : List FeLogEntry)
    (h : GAMEPLAY_LOG_TYPES.contains ty = true) :
    addLog m ty logs
      = (({ message := m, type := ty } : FeLogEntry) :: logs).take 100 := by
  unfold addLog
  rw [if_pos h]

/-- addLog preserves the invariant that every stored log record carries an
allow-listed category. -/
lemma addLog_preserves_allowlist (m ty : String) (logs : List FeLogEntry)
    (hinv : ∀ e ∈ logs, GAMEPLAY_LOG_TYPES.contains e.type = true) :
    ∀ e ∈ addLog m ty logs, GAMEPLAY_LOG_TYPES.contains e.type = true := by
  intro e he
  unfold addLog at he
  by_cases h : GAMEPLAY_LOG_TYPES.contains ty = true
  · rw [if_pos h] at he
    have hmem := List.take_subset 100 _ he
    rcases List.mem_cons.mp hmem with h1 | h2
    · rw [h1]; exact h
    · exact hinv e h2
  · rw [if_neg h] at he
    exact hinv e he

/-- C10: in the Fire Emblem App, a log_entry event whose coerced category
is outside the gameplay allow-list never modifies the logs buffer; an
allow-listed one is prepended under the capacity-100 cap; and no event
whatsoever can introduce a log record with a non-allow-listed category. -/
theorem fe_log_allowlist (s : LiveState) (p : LogPayload) :
    (GAMEPLAY_LOG_TYPES.contains (coerceLogCategory p.category) = false →
      (handleGameUpdate s (.log_entry (some p))).logs = s.logs)
    ∧ (p.text ≠ "" →
        GAMEPLAY_LOG_TYPES.contains (coerceLogCategory p.category) = true →
      (handleGameUpdate s (.log_entry (some p))).logs
        = (({ message := p.text, type := coerceLogCategory p.category } : FeLogEntry)
            :: s.logs).take 100)
    ∧ (∀ ev : Event, (∀ e ∈ s.logs, GAMEPLAY_LOG_TYPES.contains e.type = true) →
        ∀ e ∈ (handleGameUpdate s ev).logs,
          GAMEPLAY_LOG_TYPES.contains e.type = true) := by
  refine ⟨fun h => ?_, fun ht h => ?_, fun ev hinv => ?_⟩
  · rw [handle_log_entry_eq]
    by_cases he : p.text = ""
    · rw [if_pos he]
    · rw [if_neg he]
      exact addLog_not_gameplay _ _ _ h
  · rw [handle_log_entry_eq, if_neg ht]
    exact addLog_gameplay _ _ _ h
  · match ev with
    | .state_snapshot none => exact hinv
    | .state_snapshot (some q) =>
        rw [handle_state_snapshot_eq, routeChronicleBatch_logs,
          routeScreenshot_logs]
        exact hinv
    | .state_update none => exact hinv
    | .state_update (some q) =>
        rw [handle_state_update_eq, routeChronicleBatchOrDelta_logs,
          routeSession_logs, routeScreenshot_logs]
        exact hinv
    | .log_entry none => exact hinv
    | .log_entry (some q) =>
        rw [handle_log_entry_eq]
        by_cases he : q.text = ""
        · rw [if_pos he]; exact hinv
        · rw [if_neg he]
          exact addLog_preserves_allowlist _ _ _ hinv
    | .session_start none => exact hinv
    | .session_start (some q) =>
        rw [handle_session_start_eq]
        by_cases he : q.session_id = ""
        · rw [if_pos he]; exact hinv
        · rw [if_neg he]
          dsimp only
          exact addLog_preserves_allowlist _ _ _ hinv
    | .otherTag => exact hinv

/-- Witness for C10: a system-category entry is dropped, an unrecognized
category is coerced to info and dropped, and a combat-category entry is
retained. -/
theorem fe_log_allowlist_witness :
    (handleGameUpdate initLiveState (.log_entry (some
        { text := "boot", category := some (.vstr "system") }))).logs
      = initLiveState.logs
    ∧ (handleGameUpdate initLiveState (.log_entry (some
        { text := "odd", category := some (.vstr "weird") }))).logs
      = initLiveState.logs
    ∧ (handleGameUpdate initLiveState (.log_entry (some
        { text := "hit", category := some (.vstr "combat") }))).logs
      = (({ message := "hit", type := "combat" } : FeLogEntry)
          :: initLiveState.logs).take 100 :=
  ⟨(fe_log_allowlist initLiveState
      { text := "boot", category := some (.vstr "system") }).1 (by decide),
   (fe_log_allowlist initLiveState
      { text := "odd", category := some (.vstr "weird") }).1 (by decide),
   by
     have h := (fe_log_allowlist initLiveState
       { text := "hit", category := some (.vstr "combat") }).2.1
       (by decide) (by decide)
     simpa using h⟩

/-- A Pokemon-mode raw log record (src/unnamed/part_011): the Date.now id
and timestamp are wall-clock inputs omitted as before. -/
structure PkLogEntry where
  text : String
  type : String
  is_action : Option Bool
  is_vision : Option Bool
  is_response : Option Bool
deriving DecidableEq, Repr

/-- The newest-first capacity-3000 raw log push of the Pokemon App
(src/unnamed/part_011, lines 139, 153 and 165): prepend the new record and
keep the newest 3000. -/
def pkmnPushLog (prev : List PkLogEntry) (newLog : PkLogEntry) : List PkLogEntry :=
  (newLog :: prev).take 3000

/-- The useThoughts hook state (pokemon-ui display.ts file, lines 165-180):
the last raw thought seen and the bounded thought list.  Entries are
identified by their raw text; the UUID, Date timestamp and parsed sections
produced by transformThought do not affect the buffer discipline. -/
structure ThoughtsState where
  lastThought : String
  thoughts : List String
deriving DecidableEq, Repr

/-- The initial useThoughts state: empty ref and empty list. -/
def initThoughtsState : ThoughtsState :=
  { lastThought := "", thoughts := [] }

/-- addThought of the useThoughts hook: a raw thought equal to the
immediately preceding one is discarded; otherwise it is appended at the
tail and the list is cut to its newest (last) 20 entries, matching
slice(-20). -/
def addThought (rawThought : String) (st : ThoughtsState) : ThoughtsState :=
  if rawThought = st.lastThought then st
  else
    { lastThought := rawThought,
      thoughts := (st.thoughts ++ [rawThought]).drop
        ((st.thoughts ++ [rawThought]).length - 20) }

/-- The last min(N, length) elements of a list, in order: the meaning of a
slice(-N) tail cap. -/
def takeLastN (N : Nat) (l : List α) : List α :=
  l.drop (l.length - N)

/-- Prepending to an N-capped list and re-capping equals capping the
uncapped prepend. -/
lemma take_cons_take (N : Nat) (x : α) (l : List α) :
    (x :: l.take N).take N = (x :: l).take N := by
  cases N with
  | zero => rfl
  | succ n =>
      simp [List.take_succ_cons, List.take_take, Nat.min_eq_left (Nat.le_succ n)]

/-- Folding a newest-first capacity-N push from an already-capped start
retains exactly the N most recently pushed elements, newest first. -/
lemma foldl_pushFrontCap (N : Nat) :
    ∀ (xs l : List α),
      xs.foldl (fun acc x => (x :: acc).take N) (l.take N)
        = (xs.reverse ++ l).take N := by
  intro xs
  induction xs with
  | nil => intro l; simp
  | cons x rest ih =>
      intro l
      rw [List.foldl_cons, take_cons_take, ih (x :: l)]
      simp

/-- The tail cap absorbs an earlier tail cap. -/
lemma takeLastN_absorb (N : Nat) (l : List α) (x : α) :
    takeLastN N (takeLastN N l ++ [x]) = takeLastN N (l ++ [x]) := by
  by_cases h0 : N = 0
  · subst h0
    simp [takeLastN]
  · have hN : 1 ≤ N := Nat.one_le_iff_ne_zero.mpr h0
    unfold takeLastN
    rw [List.drop_append_eq_append_drop, List.drop_append_eq_append_drop,
      List.drop_drop]
    simp only [List.length_append, List.length_drop, List.length_cons,
      List.length_nil]
    congr 1
    · congr 1
      omega
    · congr 1
      omega

/-- Folding an oldest-first capacity-N push from an already-capped start
retains exactly the N most recently pushed elements, oldest first. -/
lemma foldl_pushBackCap (N : Nat) :
    ∀ (xs l : List α),
      xs.foldl (fun acc x => (acc ++ [x]).drop ((acc ++ [x]).length - N))
          (takeLastN N l)
        = takeLastN N (l ++ xs) := by
  intro xs
  induction xs with
  | nil => intro l; simp
  | cons x rest ih =>
      intro l
      rw [List.foldl_cons]
      have hstep : (takeLastN N l ++ [x]).drop ((takeLastN N l ++ [x]).length - N)
          = takeLastN N (l ++ [x]) := takeLastN_absorb N l x
      rw [hstep, ih (l ++ [x])]
      simp

/-- The tail cap never exceeds N elements. -/
lemma takeLastN_length_le (N : Nat) (l : List α) :
    (takeLastN N l).length ≤ N := by
  simp only [takeLastN, List.length_drop]
  omega

/-- Folding addLog over pushes that are all allow-listed is a plain
newest-first capacity-100 fold over the corresponding records. -/
lemma foldl_addLog_gameplay :
    ∀ (pushes : List (String × String)) (l : List FeLogEntry),
      (∀ q ∈ pushes, GAMEPLAY_LOG_TYPES.contains q.2 = true) →
      pushes.foldl (fun logs q => addLog q.1 q.2 logs) l
        = (pushes.map (fun q => ({ message := q.1, type := q.2 } : FeLogEntry))).foldl
            (fun acc x => (x :: acc).take 100) l := by
  intro pushes
  induction pushes with
  | nil => intro l _; rfl
  | cons q rest ih =>
      intro l h
      rw [List.map_cons, List.foldl_cons, List.foldl_cons,
        addLog_gameplay _ _ _ (h q (List.mem_cons_self q rest))]
      exact ih _ (fun r hr => h r (List.mem_cons_of_mem q hr))

/-- Folding addThought over raw thoughts in which no element repeats its
predecessor (all pushes accepted) is a plain oldest-first capacity-20 fold
over the raw strings. -/
lemma foldl_addThought_chain :
    ∀ (raws : List String) (st : ThoughtsState),
      List.Chain' (· ≠ ·) (st.lastThought :: raws) →
      (raws.foldl (fun acc r => addThought r acc) st).thoughts
        = raws.foldl
            (fun acc x => (acc ++ [x]).drop ((acc ++ [x]).length - 20))
            st.thoughts := by
  intro raws
  induction raws with
  | nil => intro st _; rfl
  | cons r rest ih =>
      intro st hch
      have h1 := List.chain'_cons.mp hch
      have hstep : addThought r st
          = { lastThought := r,
              thoughts := (st.thoughts ++ [r]).drop
                ((st.thoughts ++ [r]).length - 20) } := by
        unfold addThought
        rw [if_neg (Ne.symm h1.1)]
      rw [List.foldl_cons, List.foldl_cons, hstep]
      exact ih _ h1.2

/-- C3: the three bounded push buffers.  The Fire Emblem action log retains
at most the 100 most recent allow-listed pushes, newest first; the Pokemon
raw log retains at most the 3000 most recent pushes, newest first; the
thought buffer retains at most the 20 most recent accepted pushes, oldest
first — each exactly the configured number of most recently pushed
elements, eviction dropping the logically oldest. -/
theorem bounded_buffers_spec (pushes : List (String × String))
    (xs : List PkLogEntry) (raws : List String) :
    ((∀ q ∈ pushes, GAMEPLAY_LOG_TYPES.contains q.2 = true) →
      pushes.foldl (fun logs q => addLog q.1 q.2 logs) []
          = ((pushes.map
              (fun q => ({ message := q.1, type := q.2 } : FeLogEntry))).reverse).take 100
        ∧ (pushes.foldl (fun logs q => addLog q.1 q.2 logs) []).length ≤ 100)
    ∧ (xs.foldl pkmnPushLog [] = xs.reverse.take 3000
        ∧ (xs.foldl pkmnPushLog []).length ≤ 3000)
    ∧ (List.Chain' (· ≠ ·) ("" :: raws) →
      (raws.foldl (fun st r => addThought r st) initThoughtsState).thoughts
          = takeLastN 20 raws
        ∧ (raws.foldl (fun st r => addThought r st)
            initThoughtsState).thoughts.length ≤ 20) := by
  refine ⟨fun h => ?_, ⟨?_, ?_⟩, fun h => ?_⟩
  · have heq : pushes.foldl (fun logs q => addLog q.1 q.2 logs) []
        = ((pushes.map
            (fun q => ({ message := q.1, type := q.2 } : FeLogEntry))).reverse).take 100 := by
      rw [foldl_addLog_gameplay pushes [] h]
      have := foldl_pushFrontCap 100
        (pushes.map (fun q => ({ message := q.1, type := q.2 } : FeLogEntry))) []
      simpa using this
    exact ⟨heq, by rw [heq]; exact List.length_take_le _ _⟩
  · have := foldl_pushFrontCap 3000 xs []
    simpa using this
  · have heq : xs.foldl pkmnPushLog [] = xs.reverse.take 3000 := by
      have := foldl_pushFrontCap 3000 xs []
      simpa using this
    rw [heq]
    exact List.length_take_le _ _
  · have heq : (raws.foldl (fun st r => addThought r st) initThoughtsState).thoughts
        = takeLastN 20 raws := by
      rw [foldl_addThought_chain raws initThoughtsState h]
      have := foldl_pushBackCap 20 raws []
      simpa using this
    exact ⟨heq, by rw [heq]; exact takeLastN_length_le _ _⟩

/-- Witness for C3 at two allow-listed log pushes, two raw Pokemon log
pushes and two distinct thoughts. -/
theorem bounded_buffers_spec_witness :
    (∀ q ∈ [(("a", "combat") : String × String), ("b", "ai")],
        GAMEPLAY_LOG_TYPES.contains q.2 = true)
    ∧ [(("a", "combat") : String × String), ("b", "ai")].foldl
        (fun logs q => addLog q.1 q.2 logs) []
        = (([(("a", "combat") : String × String), ("b", "ai")].map
            (fun q => ({ message := q.1, type := q.2 } : FeLogEntry))).reverse).take 100
    ∧ List.Chain' (· ≠ ·) ("" :: ["t1", "t2"])
    ∧ (["t1", "t2"].foldl (fun st r => addThought r st) initThoughtsState).thoughts
        = takeLastN 20 ["t1", "t2"] :=
  ⟨by decide,
   ((bounded_buffers_spec [("a", "combat"), ("b", "ai")] [] ["t1", "t2"]).1
      (by decide)).1,
   by simp [List.chain'_cons],
   ((bounded_buffers_spec [("a", "combat"), ("b", "ai")] [] ["t1", "t2"]).2.2
      (by simp [List.chain'_cons])).1⟩

/-- A JavaScript regex word character: [A-Za-z0-9_], the class the word
boundary anchors of the button pattern are defined against. -/
def isWordChar (c : Char) : Bool := c.isAlphanum || c = '_'

/-- Character-wise ASCII uppercase, the effect of toUpperCase on the texts
involved (button tokens are ASCII). -/
def toUpperStr (s : String) : String := String.mk (s.toList.map Char.toUpper)

/-- Splits a character list into its maximal runs of word characters; the
accumulator holds the current run reversed. -/
def wordTokensAux : List Char → List Char → List (List Char)
  | [], cur => if cur.isEmpty then [] else [cur.reverse]
  | c :: rest, cur =>
      if isWordChar c then wordTokensAux rest (c :: cur)
      else if cur.isEmpty then wordTokensAux rest []
      else cur.reverse :: wordTokensAux rest []

/-- The whole-word tokens of a text.  The source pattern
b(UP|DOWN|LEFT|RIGHT|A|B|START|SELECT|L|R)b with global and ignore-case
flags matches exactly those maximal word-character runs whose uppercasing
is one of the ten alternatives, because every alternative consists of word
characters only and both ends are anchored on word boundaries. -/
def wordTokens (s : String) : List String :=
  (wordTokensAux s.toList []).map (fun cs => String.mk cs)

/-- The canonical button set of extractButtons
(pokemon-ui/src/utils/sprites.ts lines 194-198 and
tmp/fe-client/src/utils/transformers.ts lines 55-59). -/
def BUTTONS : List String :=
  ["UP", "DOWN", "LEFT", "RIGHT", "A", "B", "START", "SELECT", "L", "R"]

/-- Spreading a JavaScript Set built from a list: keeps the first
occurrence of each element, in insertion order. -/
def jsSetDedup (l : List String) : List String :=
  l.foldl (fun acc x => if x ∈ acc then acc else acc ++ [x]) []

/-- extractButtons: match the canonical buttons as whole words
case-insensitively, uppercase every match, and deduplicate keeping the
order of first occurrence. -/
def extractButtons (text : String) : List String :=
  jsSetDedup (((wordTokens text).filter
    (fun t => BUTTONS.contains (toUpperStr t))).map (fun t => toUpperStr t))

/-- The set-spread dedup never duplicates an element. -/
lemma jsSetDedup_aux_nodup :
    ∀ (l acc : List String), acc.Nodup →
      (l.foldl (fun acc x => if x ∈ acc then acc else acc ++ [x]) acc).Nodup := by
  intro l
  induction l with
  | nil => intro acc h; exact h
  | cons x rest ih =>
      intro acc h
      rw [List.foldl_cons]
      by_cases hx : x ∈ acc
      · rw [if_pos hx]; exact ih acc h
      · rw [if_neg hx]
        exact ih _ (List.nodup_append.mpr
          ⟨h, List.nodup_singleton x, by simpa [List.disjoint_left] using hx⟩)

/-- The set-spread dedup preserves membership exactly. -/
lemma jsSetDedup_aux_mem :
    ∀ (l acc : List String) (b : String),
      b ∈ l.foldl (fun acc x => if x ∈ acc then acc else acc ++ [x]) acc
        ↔ b ∈ acc ∨ b ∈ l := by
  intro l
  induction l with
  | nil => intro acc b; simp
  | cons x rest ih =>
      intro acc b
      rw [List.foldl_cons]
      by_cases hx : x ∈ acc
      · rw [if_pos hx, ih]
        constructor
        · rintro (h | h)
          · exact Or.inl h
          · exact Or.inr (List.mem_cons_of_mem x h)
        · rintro (h | h)
          · exact Or.inl h
          · rcases List.mem_cons.mp h with rfl | h2
            · exact Or.inl hx
            · exact Or.inr h2
      · rw [if_neg hx, ih]
        constructor
        · rintro (h | h)
          · rcases List.mem_append.mp h with h1 | h1
            · exact Or.inl h1
            · have hbx : b = x := List.mem_singleton.mp h1
              exact Or.inr (hbx ▸ List.mem_cons_self x rest)
          · exact Or.inr (List.mem_cons_of_mem x h)
        · rintro (h | h)
          · exact Or.inl (List.mem_append_left _ h)
          · rcases List.mem_cons.mp h with rfl | h2
            · exact Or.inl (List.mem_append_right _ (List.mem_singleton_self b))
            · exact Or.inr h2

/-- Deduplication keeping the first occurrence of each element, in order
of first occurrence — the spec-side reading of order-of-first-occurrence
deduplication, to be compared with the Set spread of the source. -/
def firstDedup : List String → List String
  | [] => []
  | x :: xs => x :: firstDedup (xs.filter (fun y => y ≠ x))
termination_by l => l.length
decreasing_by
  simp_wf
  exact Nat.lt_succ_of_le (List.length_filter_le _ xs)

/-- The Set-spread fold from any accumulator appends exactly the
first-occurrence dedup of the elements not yet seen. -/
lemma foldl_dedup_eq_firstDedup_aux :
    ∀ (l acc : List String),
      l.foldl (fun acc x => if x ∈ acc then acc else acc ++ [x]) acc
        = acc ++ firstDedup (l.filter (fun x => decide (x ∉ acc))) := by
  intro l
  induction l with
  | nil => intro acc; simp [firstDedup]
  | cons x xs ih =>
      intro acc
      rw [List.foldl_cons, List.filter_cons]
      by_cases hx : x ∈ acc
      · rw [if_pos hx]
        have hd : (decide (x ∉ acc)) = false := by simp [hx]
        rw [hd]
        rw [if_neg (by simp)]
        exact ih acc
      · rw [if_neg hx]
        have hd : (decide (x ∉ acc)) = true := by simp [hx]
        rw [hd, if_pos rfl]
        rw [ih (acc ++ [x])]
        rw [show firstDedup (x :: xs.filter (fun y => decide (y ∉ acc)))
            = x :: firstDedup
                ((xs.filter (fun y => decide (y ∉ acc))).filter
                  (fun y => y ≠ x)) from by rw [firstDedup]]
        rw [List.filter_filter, List.append_assoc]
        have hfilters : xs.filter (fun y => decide (y ∉ acc ++ [x]))
            = xs.filter (fun y => decide (y ≠ x) && decide (y ∉ acc)) := by
          apply List.filter_congr
          intro y _
          simp [List.mem_append, not_or, Bool.and_comm]
        rw [hfilters]
        rfl

/-- The JavaScript Set spread is exactly first-occurrence-ordered
deduplication. -/
lemma jsSetDedup_eq_firstDedup (l : List String) :
    jsSetDedup l = firstDedup l := by
  unfold jsSetDedup
  rw [foldl_dedup_eq_firstDedup_aux l []]
  simp

/-- C7: extractButtons on the concrete input a A LEFT a yields exactly
[A, LEFT] and on LEFT a yields [LEFT, A] (first-occurrence order, not
sorted order); its output never contains duplicates; an uppercase name b
is returned exactly when b is a canonical button and some whole-word token
of the text uppercases to b (case-insensitive matching, case-normalized
output); and on every input the output is the first-occurrence-ordered
dedup of the uppercased whole-word button matches, in match order. -/
theorem extract_buttons_spec :
    extractButtons "a A LEFT a" = ["A", "LEFT"]
    ∧ extractButtons "LEFT a" = ["LEFT", "A"]
    ∧ (∀ s : String, (extractButtons s).Nodup)
    ∧ (∀ s b : String,
        b ∈ extractButtons s
          ↔ b ∈ BUTTONS ∧ ∃ t ∈ wordTokens s, toUpperStr t = b)
    ∧ (∀ s : String,
        extractButtons s
          = firstDedup (((wordTokens s).filter
              (fun t => BUTTONS.contains (toUpperStr t))).map
                (fun t => toUpperStr t))) := by
  refine ⟨by decide, by decide, fun s => ?_, fun s b => ?_,
    fun s => jsSetDedup_eq_firstDedup _⟩
  · exact jsSetDedup_aux_nodup _ [] List.nodup_nil
  · unfold extractButtons jsSetDedup
    rw [jsSetDedup_aux_mem]
    simp only [List.not_mem_nil, false_or, List.mem_map, List.mem_filter]
    constructor
    · rintro ⟨t, ⟨ht, hp⟩, rfl⟩
      exact ⟨by simpa using hp, t, ht, rfl⟩
    · rintro ⟨hb, t, ht, rfl⟩
      exact ⟨t, ⟨ht, by simpa using hb⟩, rfl⟩

/-- Witness for C7: the characterizations applied at concrete texts. -/
theorem extract_buttons_spec_witness :
    (extractButtons "press start then Start").Nodup
    ∧ ("START" ∈ extractButtons "press start then Start"
        ↔ "START" ∈ BUTTONS
          ∧ ∃ t ∈ wordTokens "press start then Start", toUpperStr t = "START")
    ∧ extractButtons "b up B"
        = firstDedup (((wordTokens "b up B").filter
            (fun t => BUTTONS.contains (toUpperStr t))).map
              (fun t => toUpperStr t)) :=
  ⟨extract_buttons_spec.2.2.1 "press start then Start",
   extract_buttons_spec.2.2.2.1 "press start then Start" "START",
   extract_buttons_spec.2.2.2.2 "b up B"⟩

/-- The display state of the strict-sync VisionScreenshot component
(pokemon-ui/src/components/vision/VisionScreenshot.tsx, lines 24-39). -/
structure VisionDisplayState where
  screenshotSrc : String
  isLoading : Bool
  error : Option String
deriving DecidableEq, Repr

/-- The strict-sync resolution effect of that component: with a truthy
embedded base64 payload the data URL is used verbatim; without one the
component clears the source and reports the no-data error.  The second
component counts the network fetch / retry attempts the effect performs —
the strict effect contains no Image preload and no latest-frame URL at
all, so it is zero in every branch. -/
def strictVisionResolve (base64Data : Option String) : VisionDisplayState × Nat :=
  match base64Data with
  | some b =>
      if !b.isEmpty then
        ({ screenshotSrc := "data:image/png;base64," ++ b,
           isLoading := false, error := none }, 0)
      else
        ({ screenshotSrc := "", isLoading := false,
           error := some "No screenshot data available" }, 0)
  | none =>
      ({ screenshotSrc := "", isLoading := false,
         error := some "No screenshot data available" }, 0)

/-- C9: in strict vision-sync mode, an event without a truthy embedded
image payload immediately yields the terminal no-data display state, with
zero retry attempts and zero network fetches. -/
theorem strict_vision_no_data (base64Data : Option String)
    (h : jsOptStrTruthy base64Data = false) :
    (strictVisionResolve base64Data).1.error
        = some "No screenshot data available"
    ∧ (strictVisionResolve base64Data).1.isLoading = false
    ∧ (strictVisionResolve base64Data).1.screenshotSrc = ""
    ∧ (strictVisionResolve base64Data).2 = 0 := by
  cases base64Data with
  | none => exact ⟨rfl, rfl, rfl, rfl⟩
  | some b =>
      have hb : b.isEmpty = true := by
        have hnot : (!b.isEmpty) = false := h
        simpa using hnot
      simp [strictVisionResolve, hb]

/-- Witness for C9 at the absent payload. -/
theorem strict_vision_no_data_witness :
    jsOptStrTruthy none = false
    ∧ ((strictVisionResolve none).1.error = some "No screenshot data available"
      ∧ (strictVisionResolve none).1.isLoading = false
      ∧ (strictVisionResolve none).1.screenshotSrc = ""
      ∧ (strictVisionResolve none).2 = 0) :=
  ⟨rfl, strict_vision_no_data none rfl⟩

/-- Character-wise ASCII lowercase, the effect of toLowerCase on the
chapter identifiers involved. -/
def toLowerStr (s : String) : String := String.mk (s.toList.map Char.toLower)

/-- Whitespace trim on both ends, the effect of trim. -/
def trimStr (s : String) : String :=
  String.mk
    (((s.toList.dropWhile Char.isWhitespace).reverse.dropWhile
        Char.isWhitespace).reverse)

/-- The effect of replace with the anchored pattern of one or more leading
zero characters and the empty replacement. -/
def stripLeadingZeros (s : String) : String :=
  String.mk (s.toList.dropWhile (fun c => c = '0'))

/-- Decimal reading of a digit run, the effect of parseInt on it. -/
def digitsToNat (cs : List Char) : Nat :=
  cs.foldl (fun n c => 10 * n + (c.toNat - 48)) 0

/-- The route marker of the chapter grammar (tmp/fe-client display types):
eirika, ephraim or shared. -/
inductive RouteType where
  | eirika
  | ephraim
  | shared
deriving DecidableEq, Repr

/-- A chapter tree node (tmp/fe-client display types). -/
structure ChapterNode where
  id : String
  number : String
  title : String
  route : RouteType
deriving DecidableEq, Repr

/-- SHARED_CHAPTERS of the chapterData module (tmp/fe-client, in the
InfoBar.tsx source file, lines 40-51). -/
def SHARED_CHAPTERS : List ChapterNode :=
  [{ id := "prologue", number := "P", title := "The Fall of Renais", route := .shared },
   { id := "ch1", number := "1", title := "Escape!", route := .shared },
   { id := "ch2", number := "2", title := "The Protected", route := .shared },
   { id := "ch3", number := "3", title := "The Bandits of Borgo", route := .shared },
   { id := "ch4", number := "4", title := "Ancient Horrors", route := .shared },
   { id := "ch5", number := "5", title := "The Empire's Reach", route := .shared },
   { id := "ch5x", number := "5x", title := "Unbroken Heart", route := .shared },
   { id := "ch6", number := "6", title := "Victims of War", route := .shared },
   { id := "ch7", number := "7", title := "Waterside Renvall", route := .shared },
   { id := "ch8", number := "8", title := "It's a Trap!", route := .shared }]

/-- EIRIKA_CHAPTERS of the chapterData module, lines 53-61. -/
def EIRIKA_CHAPTERS : List ChapterNode :=
  [{ id := "ch9e", number := "9", title := "Distant Blade", route := .eirika },
   { id := "ch10e", number := "10", title := "Revolt at Carcino", route := .eirika },
   { id := "ch11e", number := "11", title := "Creeping Darkness", route := .eirika },
   { id := "ch12e", number := "12", title := "Village of Silence", route := .eirika },
   { id := "ch13e", number := "13", title := "Hamill Canyon", route := .eirika },
   { id := "ch14e", number := "14", title := "Queen of White Dunes", route := .eirika },
   { id := "ch15e", number := "15", title := "Scorched Sand", route := .eirika }]

/-- EPHRAIM_CHAPTERS of the chapterData module, lines 63-71. -/
def EPHRAIM_CHAPTERS : List ChapterNode :=
  [{ id := "ch9p", number := "9", title := "Fort Rigwald", route := .ephraim },
   { id := "ch10p", number := "10", title := "Turning Traitor", route := .ephraim },
   { id := "ch11p", number := "11", title := "Phantom Ship", route := .ephraim },
   { id := "ch12p", number := "12", title := "Landing at Taizel", route := .ephraim },
   { id := "ch13p", number := "13", title := "Fluorspar's Oath", route := .ephraim },
   { id := "ch14p", number := "14", title := "Father and Son", route := .ephraim },
   { id := "ch15p", number := "15", title := "Scorched Sand", route := .ephraim }]

/-- FINAL_CHAPTERS of the chapterData module, lines 73-80. -/
def FINAL_CHAPTERS : List ChapterNode :=
  [{ id := "ch16", number := "16", title := "Ruled by Madness", route := .shared },
   { id := "ch17", number := "17", title := "River of Regrets", route := .shared },
   { id := "ch18", number := "18", title := "Two Faces of Evil", route := .shared },
   { id := "ch19", number := "19", title := "Last Hope", route := .shared },
   { id := "ch20", number := "20", title := "Darkling Woods", route := .shared },
   { id := "final", number := "F", title := "Sacred Stones", route := .shared }]

/-- getAllChapters of the chapterData module, lines 82-90. -/
def getAllChapters (route : Option RouteType) : List ChapterNode :=
  if route = some .eirika then SHARED_CHAPTERS ++ EIRIKA_CHAPTERS ++ FINAL_CHAPTERS
  else if route = some .ephraim then
    SHARED_CHAPTERS ++ EPHRAIM_CHAPTERS ++ FINAL_CHAPTERS
  else SHARED_CHAPTERS

/-- The anchored chapter grammar: one or more digits, an optional x, an
optional e or p route suffix, end of string, with the digit run read
greedily — the match of the source pattern on an already-lowercased
string.  Returns the digit run, whether x is present, and the suffix. -/
def matchChapterRegex (s : String) : Option (String × Bool × Option Char) :=
  let cs := s.toList
  let digits := cs.takeWhile (fun c => c.isDigit)
  let rest := cs.dropWhile (fun c => c.isDigit)
  if digits.isEmpty then none
  else
    match rest with
    | [] => some (String.mk digits, false, none)
    | [c] =>
        if c = 'x' then some (String.mk digits, true, none)
        else if c = 'e' || c = 'p' then some (String.mk digits, false, some c)
        else none
    | [c1, c2] =>
        if c1 = 'x' && (c2 = 'e' || c2 = 'p') then
          some (String.mk digits, true, some c2)
        else none
    | _ => none

/-- parseChapterNumber of the chapterData module, lines 92-130: literal
aliases for the prologue and final stages, then the regex grammar, with
the default eirika route for suffix-free stage numbers 9 to 15 and no
route at all for stage numbers up to the branch point 8. -/
def parseChapterNumber (chapterStr : Option String) : String × Option RouteType :=
  match chapterStr with
  | none => ("P", none)
  | some cs =>
      if cs = "" then ("P", none)
      else
        let normalized := trimStr (toLowerStr cs)
        if normalized = "prologue" || normalized = "p" || normalized = "0" then
          ("P", none)
        else if normalized = "final" || normalized = "f" || normalized = "21" then
          ("F", none)
        else
          match matchChapterRegex normalized with
          | some (num, hasX, routeSuffix) =>
              let chapterNum := digitsToNat num.toList
              let route0 : Option RouteType :=
                match routeSuffix with
                | some c => if c = 'e' then some .eirika else some .ephraim
                | none => none
              let route1 :=
                if 9 ≤ chapterNum && chapterNum ≤ 15 && routeSuffix.isNone then
                  some RouteType.eirika
                else route0
              ((if hasX then num ++ "x" else num),
               if chapterNum ≤ 8 then none else route1)
          | none => (cs, none)

/-- getChapterIndex of the chapterData module, lines 132-143: first index
whose chapter number equals the zero-stripped or the plain lowercased
stage string, and -1 when no chapter matches. -/
def getChapterIndex (chapterNum : String) (route : Option RouteType) : Int :=
  let chapters := getAllChapters route
  let normalized := stripLeadingZeros (toLowerStr chapterNum)
  match chapters.findIdx? (fun ch =>
      toLowerStr ch.number = normalized
        || toLowerStr ch.number = toLowerStr chapterNum) with
  | some i => (i : Int)
  | none => -1

/-- The chapter tree display state (tmp/fe-client display types). -/
structure ChapterTreeState where
  chapters : List ChapterNode
  currentChapter : String
  currentRoute : Option RouteType
  completedChapters : List String
deriving DecidableEq, Repr

/-- buildChapterTreeState of tmp/fe-client/src/utils/transformers.ts,
lines 136-155, as a function of the raw stage string: all chapters
strictly before the current index are completed, and a missing index (the
JavaScript -1 with the undefined array read) falls back to prologue. -/
def buildChapterTreeState (chapterStr : Option String) : ChapterTreeState :=
  let pr := parseChapterNumber chapterStr
  let currentRoute := pr.2
  let chapters := getAllChapters currentRoute
  let currentIndex := getChapterIndex pr.1 currentRoute
  let completedChapters := (chapters.take currentIndex.toNat).map (fun ch => ch.id)
  let currentChapter :=
    match (if 0 ≤ currentIndex then chapters.get? currentIndex.toNat else none) with
    | some ch => if ch.id = "" then "prologue" else ch.id
    | none => "prologue"
  { chapters := chapters, currentChapter := currentChapter,
    currentRoute := currentRoute, completedChapters := completedChapters }

/-- C8 counterexample: the stage string 11x resolves to the default eirika
route, but no chapter in that route list carries the number 11x, so the
current chapter falls back to prologue and no stage — in particular none
of the stages numbered 1 through 10 — is marked completed, refuting the
claim. -/
theorem chapter_tree_11x_cx :
    (buildChapterTreeState (some "11x")).currentRoute = some RouteType.eirika
    ∧ (buildChapterTreeState (some "11x")).currentChapter = "prologue"
    ∧ (buildChapterTreeState (some "11x")).completedChapters = []
    ∧ "ch1" ∉ (buildChapterTreeState (some "11x")).completedChapters := by
  decide

/-- C8 amended: the stage string 11x resolves to the default eirika route
but its chapter lookup fails, leaving prologue current and nothing
completed; the plain stage string 11 resolves to eirika with chapter 11
current and every earlier chapter — all stages numbered 1 through 10
among them — completed. -/
theorem chapter_tree_11x_amended :
    ((buildChapterTreeState (some "11x")).currentRoute = some RouteType.eirika
      ∧ (buildChapterTreeState (some "11x")).currentChapter = "prologue"
      ∧ (buildChapterTreeState (some "11x")).completedChapters = [])
    ∧ ((buildChapterTreeState (some "11")).currentRoute = some RouteType.eirika
      ∧ (buildChapterTreeState (some "11")).currentChapter = "ch11e"
      ∧ (buildChapterTreeState (some "11")).completedChapters
          = ["prologue", "ch1", "ch2", "ch3", "ch4", "ch5", "ch5x",
             "ch6", "ch7", "ch8", "ch9e", "ch10e"]) := by
  decide

/-- The chronicle component of dispatching a state_update event whose
payload carries only a chronicle_update delta is exactly the delta
merge. -/
lemma handle_chronicle_delta_chronicle (s : LiveState) (e : ChronicleEntry) :
    (handleGameUpdate s
        (.state_update (some [("chronicle_update", Val.vent e)]))).chronicle
      = chronMerge s.chronicle e := by
  rw [handle_state_update_eq,
    routeChronicleBatchOrDelta_delta_hit
      [("chronicle_update", Val.vent e)] _ e rfl rfl,
    routeSession_chronicle, routeScreenshot_chronicle]

/-- Dispatching n chronicle_update delta events folds the delta merge over
the chronicle. -/
lemma foldl_handle_chronicle_delta (u : ChronicleEntry) :
    ∀ (n : Nat) (s : LiveState),
      (List.foldl handleGameUpdate s
        (List.replicate n
          (Event.state_update
            (some [("chronicle_update", Val.vent u)])))).chronicle
      = List.foldl chronMerge s.chronicle (List.replicate n u) := by
  intro n
  induction n with
  | zero => intro s; rfl
  | succ k ih =>
      intro s
      rw [List.replicate_succ, List.replicate_succ, List.foldl_cons,
        List.foldl_cons, ih, handle_chronicle_delta_chronicle]

/-- C4 counterexample: dispatching 101 state_update events each carrying an
anonymous chronicle_update delta leaves 101 entries in the chronicle — the
Fire Emblem App never truncates the chronicle to 100, refuting the claimed
capacity invariant for deltas dispatched via state_update events. -/
theorem chronicle_truncation_cx :
    (List.foldl handleGameUpdate initLiveState
        (List.replicate 101
          (Event.state_update
            (some [("chronicle_update",
              Val.vent (anonEntry "t"))])))).chronicle.length = 101
    ∧ ¬ (List.foldl handleGameUpdate initLiveState
        (List.replicate 101
          (Event.state_update
            (some [("chronicle_update",
              Val.vent (anonEntry "t"))])))).chronicle.length ≤ 100 := by
  have h : (List.foldl handleGameUpdate initLiveState
      (List.replicate 101
        (Event.state_update
          (some [("chronicle_update",
            Val.vent (anonEntry "t"))])))).chronicle.length = 101 := by
    rw [foldl_handle_chronicle_delta]
    simpa [initLiveState] using
      length_foldl_chronMerge_replicate (anonEntry "t") (by decide) 101
        initLiveState.chronicle
  exact ⟨h, by omega⟩

/-- C4 amended: a chronicle_update delta application never truncates — an
anonymous delta grows the list by exactly one, a truthy-id delta is
exactly the id filter followed by the tail append, and dispatching n
anonymous delta events from the initial state leaves exactly n entries —
while the Chronicle viewer push is exactly append-then-keep-newest-100
with no dedup, hence bounded by 100. -/
theorem chronicle_update_no_truncation (prev : List ChronicleEntry)
    (u : ChronicleEntry) :
    (jsOptStrTruthy u.id = false → (chronMerge prev u).length = prev.length + 1)
    ∧ (jsOptStrTruthy u.id = true →
        chronMerge prev u = prev.filter (fun e => e.id ≠ u.id) ++ [u])
    ∧ (jsOptStrTruthy u.id = false →
        ∀ n, (List.foldl handleGameUpdate initLiveState
          (List.replicate n
            (Event.state_update
              (some [("chronicle_update",
                Val.vent u)])))).chronicle.length = n)
    ∧ chronicleViewerPush prev u = takeLastN 100 (prev ++ [u])
    ∧ (chronicleViewerPush prev u).length ≤ 100 := by
  refine ⟨fun h => ?_, fun h => ?_, fun h n => ?_, rfl, ?_⟩
  · simp [chronMerge, h]
  · unfold chronMerge
    rw [if_neg (show ¬(jsOptStrTruthy u.id = false) by simp [h])]
  · rw [foldl_handle_chronicle_delta]
    simpa [initLiveState] using
      length_foldl_chronMerge_replicate u h n initLiveState.chronicle
  · simp only [chronicleViewerPush, List.length_drop]
    omega

/-- Witness for the amended C4 theorem at concrete inputs: an anonymous
delta, a truthy-id delta, a 101-event dispatch and a viewer push. -/
theorem chronicle_update_no_truncation_witness :
    jsOptStrTruthy (anonEntry "t").id = false
    ∧ jsOptStrTruthy (idEntry "x" "t").id = true
    ∧ (chronMerge [anonEntry "s"] (anonEntry "t")).length = 2
    ∧ chronMerge [anonEntry "s"] (idEntry "x" "t")
        = ([anonEntry "s"].filter
            (fun e => e.id ≠ (idEntry "x" "t").id)) ++ [idEntry "x" "t"]
    ∧ (List.foldl handleGameUpdate initLiveState
        (List.replicate 101
          (Event.state_update
            (some [("chronicle_update",
              Val.vent (anonEntry "t"))])))).chronicle.length = 101
    ∧ chronicleViewerPush [anonEntry "s"] (anonEntry "t")
        = takeLastN 100 ([anonEntry "s"] ++ [anonEntry "t"])
    ∧ (chronicleViewerPush [anonEntry "s"] (anonEntry "t")).length ≤ 100 :=
  ⟨by decide, by decide,
   by simpa using
     (chronicle_update_no_truncation [anonEntry "s"] (anonEntry "t")).1
       (by decide),
   (chronicle_update_no_truncation [anonEntry "s"] (idEntry "x" "t")).2.1
     (by decide),
   (chronicle_update_no_truncation [anonEntry "s"] (anonEntry "t")).2.2.1
     (by decide) 101,
   (chronicle_update_no_truncation [anonEntry "s"] (anonEntry "t")).2.2.2.1,
   (chronicle_update_no_truncation [anonEntry "s"] (anonEntry "t")).2.2.2.2⟩
